import Mathlib

/-
  Verification development for the `download_ohlcv_2025.py` data-acquisition
  utility (repository jworkstation/market-data).

  The Python source is shallowly embedded below:
  * `validate_date` embeds the `datetime.strptime(date_str, "%Y-%m-%d")`
    check (CPython's `_strptime` matches `%Y` as exactly four digits, `%m`
    as `1[0-2]|0[1-9]|[1-9]`, `%d` as `3[01]|[12]\d|0[1-9]|[1-9]`, requires
    the whole string to be consumed, and the `datetime` constructor then
    rejects calendar-invalid day/month/year combinations).  The model is
    restricted to ASCII digits.
  * pandas DataFrames are embedded as a list of column names plus a list of
    rows of `Cell`s; the adapter functions `download_binance_ohlcv` and
    `download_yahoo_ohlcv` are the source's normalization pipelines over
    that representation.
  * The network and the filesystem are abstracted as an `Env` of provider
    responses and write permissions; `download_asset` and `main` mirror the
    orchestrator, recording the fetch calls performed and the files written.
-/

/-! ### Definitions -/

/-- Value of an ASCII digit character, `none` for anything else
(models the `\d`-classes of CPython's `_strptime` regexes over ASCII). -/
def digitVal? (c : Char) : Option Nat :=
  if 48 ≤ c.toNat ∧ c.toNat ≤ 57 then some (c.toNat - 48) else none

/-- Numeric value of a list of digit characters (most significant first). -/
def listNat? (cs : List Char) : Option Nat :=
  cs.foldl (fun acc c =>
    match acc, digitVal? c with
    | some a, some v => some (10 * a + v)
    | _, _ => none) (some 0)

/-- `%Y`: exactly four digits (CPython `_strptime`). -/
def parseYear : List Char → Option (Nat × List Char)
  | a :: b :: c :: d :: rest =>
    match digitVal? a, digitVal? b, digitVal? c, digitVal? d with
    | some va, some vb, some vc, some vd =>
        some (1000 * va + 100 * vb + 10 * vc + vd, rest)
    | _, _, _, _ => none
  | _ => none

/-- `%m`: the regex alternation `1[0-2]|0[1-9]|[1-9]`, tried in that order. -/
def parseMonth : List Char → Option (Nat × List Char)
  | [] => none
  | c1 :: rest1 =>
    match digitVal? c1, rest1 with
    | none, _ => none
    | some v1, [] => if 1 ≤ v1 then some (v1, []) else none
    | some v1, c2 :: rest2 =>
      match digitVal? c2 with
      | none => if 1 ≤ v1 then some (v1, c2 :: rest2) else none
      | some v2 =>
        if v1 = 1 ∧ v2 ≤ 2 then some (10 + v2, rest2)
        else if v1 = 0 ∧ 1 ≤ v2 then some (v2, rest2)
        else if 1 ≤ v1 then some (v1, c2 :: rest2)
        else none

/-- `%d`: the regex alternation `3[01]|[12]\d|0[1-9]|[1-9]`, tried in that order. -/
def parseDay : List Char → Option (Nat × List Char)
  | [] => none
  | c1 :: rest1 =>
    match digitVal? c1, rest1 with
    | none, _ => none
    | some v1, [] => if 1 ≤ v1 then some (v1, []) else none
    | some v1, c2 :: rest2 =>
      match digitVal? c2 with
      | none => if 1 ≤ v1 then some (v1, c2 :: rest2) else none
      | some v2 =>
        if v1 = 3 ∧ v2 ≤ 1 then some (30 + v2, rest2)
        else if v1 = 1 ∨ v1 = 2 then some (10 * v1 + v2, rest2)
        else if v1 = 0 ∧ 1 ≤ v2 then some (v2, rest2)
        else if 1 ≤ v1 then some (v1, c2 :: rest2)
        else none

/-- Full match of `"%Y-%m-%d"` against the string: year, `'-'`, month, `'-'`,
day, end of input (CPython raises "unconverted data remains" otherwise). -/
def parseYmd (cs : List Char) : Option (Nat × Nat × Nat) :=
  match parseYear cs with
  | some (y, '-' :: r1) =>
    match parseMonth r1 with
    | some (m, '-' :: r2) =>
      match parseDay r2 with
      | some (d, []) => some (y, m, d)
      | _ => none
    | _ => none
  | _ => none

/-- Proleptic-Gregorian leap year, as used by Python's `datetime`. -/
def isLeap (y : Nat) : Bool :=
  y % 4 = 0 && (y % 100 ≠ 0 || y % 400 = 0)

/-- Length of a month, as enforced by Python's `datetime` constructor. -/
def daysInMonth (y m : Nat) : Nat :=
  if m = 2 then (if isLeap y then 29 else 28)
  else if m = 4 ∨ m = 6 ∨ m = 9 ∨ m = 11 then 30
  else 31

/-- The range checks of the `datetime(year, month, day)` constructor. -/
def validDate (y m d : Nat) : Bool :=
  decide (1 ≤ y) && decide (y ≤ 9999) && decide (1 ≤ m) && decide (m ≤ 12) &&
    decide (1 ≤ d) && decide (d ≤ daysInMonth y m)

/-- `datetime.strptime(s, "%Y-%m-%d")` succeeds. -/
def strptimeYmd (s : String) : Bool :=
  match parseYmd s.data with
  | some (y, m, d) => validDate y m d
  | none => false

/-- Source `validate_date`: returns `True`, or raises
`ValueError(f"Invalid date format: {date_str}. Use YYYY-MM-DD format.")`. -/
def validate_date (date_str : String) : Except String Bool :=
  if strptimeYmd date_str then Except.ok true
  else Except.error ("Invalid date format: " ++ date_str ++ ". Use YYYY-MM-DD format.")

/-- Exact decimal number `mant / 10 ^ scale`. -/
structure DecNum where
  mant : Int
  scale : Nat
deriving DecidableEq, Repr

/-- Longest prefix of digits, with the rest of the input. -/
def takeDigits : List Char → List Nat × List Char
  | [] => ([], [])
  | c :: r =>
    match digitVal? c with
    | some v => let p := takeDigits r; (v :: p.1, p.2)
    | none => ([], c :: r)

/-- Value of a digit list (most significant first). -/
def digitsToNat (ds : List Nat) : Nat := ds.foldl (fun a v => 10 * a + v) 0

/-- Assemble sign, integer-and-fraction digits `mant0`, fraction length
`frac` and decimal exponent `e` into an exact decimal. -/
def mkDecNum (neg : Bool) (mant0 : Nat) (frac : Nat) (e : Int) : DecNum :=
  let m : Int := if neg then -(mant0 : Int) else (mant0 : Int)
  if (frac : Int) ≤ e then ⟨m * (10 : Int) ^ (e - (frac : Int)).toNat, 0⟩
  else ⟨m, ((frac : Int) - e).toNat⟩

/-- Exponent part `[+-]digits` at the end of a numeric literal. -/
def parseExpPart (neg : Bool) (mant0 frac : Nat) (cs : List Char) : Option DecNum :=
  let p := match cs with
    | '-' :: r => (true, r)
    | '+' :: r => (false, r)
    | _ => (false, cs)
  let d := takeDigits p.2
  if d.1.isEmpty ∨ ¬ d.2.isEmpty then none
  else some (mkDecNum neg mant0 frac
    (if p.1 then -(digitsToNat d.1 : Int) else (digitsToNat d.1 : Int)))

/-- Model of the string-to-float conversion behind
`pd.to_numeric(..., errors="coerce")`: optional sign, digits with an
optional fraction (at least one digit overall), optional exponent;
anything else is non-numeric and maps to `none`. -/
def parseDec? (s : String) : Option DecNum :=
  let q := match s.data with
    | '-' :: r => (true, r)
    | '+' :: r => (false, r)
    | _ => (false, s.data)
  let ip := takeDigits q.2
  let fp := match ip.2 with
    | '.' :: r => takeDigits r
    | _ => ([], ip.2)
  if ip.1.isEmpty ∧ fp.1.isEmpty then none
  else
    match fp.2 with
    | [] => some (mkDecNum q.1 (digitsToNat (ip.1 ++ fp.1)) fp.1.length 0)
    | 'e' :: r => parseExpPart q.1 (digitsToNat (ip.1 ++ fp.1)) fp.1.length r
    | 'E' :: r => parseExpPart q.1 (digitsToNat (ip.1 ++ fp.1)) fp.1.length r
    | _ => none

/-- The character of a single digit. -/
def digitChar : Nat → Char
  | 0 => '0'
  | 1 => '1'
  | 2 => '2'
  | 3 => '3'
  | 4 => '4'
  | 5 => '5'
  | 6 => '6'
  | 7 => '7'
  | 8 => '8'
  | 9 => '9'
  | _ => '*'

/-- Decimal digits of `n` (fuelled recursion on `n / 10`). -/
def natCharsAux : Nat → Nat → List Char
  | 0, _ => []
  | fuel + 1, n =>
    if n < 10 then [digitChar n]
    else natCharsAux fuel (n / 10) ++ [digitChar (n % 10)]

/-- Decimal digits of a natural number. -/
def natChars (n : Nat) : List Char := natCharsAux (n + 1) n

/-- Decimal digits of an integer, with a leading minus sign when negative. -/
def intChars (i : Int) : List Char :=
  if i < 0 then '-' :: natChars i.natAbs else natChars i.natAbs

/-- Left-pad a digit string with zeros to width `k`. -/
def padZeros (k : Nat) (ds : List Char) : List Char :=
  List.replicate (k - ds.length) '0' ++ ds

/-- All digits of a decimal's mantissa, padded so a decimal point fits. -/
def decDigits (d : DecNum) : List Char := padZeros (d.scale + 1) (natChars d.mant.natAbs)

/-- Decimal rendering of an exact decimal number. -/
def decChars (d : DecNum) : List Char :=
  if d.scale = 0 then intChars d.mant
  else
    (if d.mant < 0 then ['-'] else []) ++
      ((decDigits d).take ((decDigits d).length - d.scale) ++
        '.' :: (decDigits d).drop ((decDigits d).length - d.scale))

/-- Civil date from days since the Unix epoch (era-based algorithm). -/
def civilFromDays (z0 : Int) : Int × Int × Int :=
  let z := z0 + 719468
  let era : Int := (if 0 ≤ z then z else z - 146096) / 146097
  let doe : Int := z - era * 146097
  let yoe : Int := (doe - doe / 1460 + doe / 36524 - doe / 146096) / 365
  let y : Int := yoe + era * 400
  let doy : Int := doe - (365 * yoe + yoe / 4 - yoe / 100)
  let mp : Int := (5 * doy + 2) / 153
  let d : Int := doy - (153 * mp + 2) / 5 + 1
  let m : Int := if mp < 10 then mp + 3 else mp - 9
  (if m ≤ 2 then y + 1 else y, m, d)

/-- Two-digit zero-padded rendering. -/
def pad2 (n : Int) : List Char := padZeros 2 (natChars n.natAbs)

/-- `YYYY-MM-DD` part of a timestamp rendering. -/
def ymdChars (c : Int × Int × Int) : List Char :=
  padZeros 4 (natChars c.1.natAbs) ++ '-' :: (pad2 c.2.1 ++ '-' :: pad2 c.2.2)

/-- `HH:MM:SS` part of a timestamp rendering, from seconds past midnight. -/
def hmsChars (rem : Nat) : List Char :=
  padZeros 2 (natChars (rem / 3600)) ++
    ':' :: (padZeros 2 (natChars (rem % 3600 / 60)) ++
      ':' :: padZeros 2 (natChars (rem % 60)))

/-- `YYYY-MM-DD HH:MM:SS` rendering of a naive timestamp in epoch ms. -/
def dtChars (ms : Int) : List Char :=
  ymdChars (civilFromDays (ms.fdiv 86400000)) ++
    ' ' :: hmsChars ((ms.fmod 86400000).toNat / 1000)

/-- `+HH:MM` / `-HH:MM` rendering of a timezone offset in minutes. -/
def tzOffChars (off : Int) : List Char :=
  (if off < 0 then '-' else '+') ::
    (padZeros 2 (natChars (off.natAbs / 60)) ++ ':' :: padZeros 2 (natChars (off.natAbs % 60)))

/-- One pandas cell: string, integer, float (with NaN), or timestamp
(epoch ms plus an optional timezone offset in minutes; `none` = naive). -/
inductive Cell where
  | str (s : String)
  | int (n : Int)
  | num (v : Option DecNum)
  | datetime (ms : Int) (tz : Option Int)
deriving DecidableEq, Repr

/-- Text of a cell in CSV output.  NaN renders as the empty field; a
timezone-aware timestamp shows its local wall-clock time and offset. -/
def Cell.render : Cell → String
  | .str s => s
  | .int n => String.mk (intChars n)
  | .num none => ""
  | .num (some d) => String.mk (decChars d)
  | .datetime ms none => String.mk (dtChars ms)
  | .datetime ms (some off) => String.mk (dtChars (ms + off * 60000) ++ tzOffChars off)

/-- A pandas DataFrame: ordered column names and rows of cells
(each row pairs with `columns` positionally). -/
structure DataFrame where
  columns : List String
  rows : List (List Cell)
deriving DecidableEq, Repr

/-- `df[c] = f(df[c])`: apply `f` to the cell of column `c` in every row
(all uses in this program are on columns that exist). -/
def DataFrame.mapCol (df : DataFrame) (c : String) (f : Cell → Cell) : DataFrame :=
  match df.columns.indexOf? c with
  | some i => { df with rows := df.rows.map (fun r => r.set i (f (r.getD i (Cell.str "")))) }
  | none => df

/-- `df[[cs]]`: keep the named columns, in the order given
(all uses in this program are on columns that exist). -/
def DataFrame.select (df : DataFrame) (cs : List String) : DataFrame :=
  { columns := cs,
    rows := df.rows.map (fun r =>
      cs.map (fun c =>
        match df.columns.indexOf? c with
        | some i => r.getD i (Cell.str "")
        | none => Cell.str "")) }

/-- `df.rename(columns={old: new})`. -/
def DataFrame.rename (df : DataFrame) (old new : String) : DataFrame :=
  { df with columns := df.columns.map (fun c => if c = old then new else c) }

/-- Comma-join of character lists (one CSV line, unquoted — no cell produced
by this program contains a comma or a newline). -/
def joinSep : List (List Char) → List Char
  | [] => []
  | [x] => x
  | x :: xs => x ++ ',' :: joinSep xs

/-- `df.to_csv(filename, index=False)` body: the header line of column
names, then one line per row, each terminated by a newline, with no
row-index column. -/
def DataFrame.toCsv (df : DataFrame) : String :=
  String.mk (joinSep (df.columns.map String.data) ++ '\n' ::
    (df.rows.map (fun r => joinSep (r.map (fun cell => cell.render.data)) ++ ['\n'])).flatten)

/-- One raw kline tuple from the exchange: the fixed 12-field shape
`[open time, open, high, low, close, volume, close time, quote asset
volume, number of trades, taker buy base, taker buy quote, ignore]`;
prices and volumes arrive as strings. -/
structure Kline where
  openTime : Int
  kOpen : String
  kHigh : String
  kLow : String
  kClose : String
  kVolume : String
  closeTime : Int
  quoteVol : String
  numTrades : Int
  takerBase : String
  takerQuote : String
  ignored : String
deriving DecidableEq, Repr

/-- A raw kline as one DataFrame row. -/
def Kline.toRow (k : Kline) : List Cell :=
  [Cell.int k.openTime, Cell.str k.kOpen, Cell.str k.kHigh, Cell.str k.kLow,
   Cell.str k.kClose, Cell.str k.kVolume, Cell.int k.closeTime,
   Cell.str k.quoteVol, Cell.int k.numTrades, Cell.str k.takerBase,
   Cell.str k.takerQuote, Cell.str k.ignored]

/-- The column names assigned to the raw klines DataFrame in the source. -/
def binanceColumns : List String :=
  ["Open Time", "Open", "High", "Low", "Close", "Volume", "Close Time",
   "Quote Asset Volume", "Number of Trades", "Taker Buy Base Asset Volume",
   "Taker Buy Quote Asset Volume", "Ignore"]

/-- `pd.to_datetime(col, unit="ms")` on an integer cell. -/
def toDatetimeMs : Cell → Cell
  | Cell.int n => Cell.datetime n none
  | c => c

/-- `pd.to_numeric(col, errors="coerce")` on one cell: total, a
non-numeric string becomes NaN (`none`), never raises. -/
def toNumericCoerce : Cell → Cell
  | Cell.str s => Cell.num (parseDec? s)
  | Cell.int n => Cell.num (some ⟨n, 0⟩)
  | Cell.num v => Cell.num v
  | Cell.datetime ms _ => Cell.num (some ⟨ms, 0⟩)

/-- The post-fetch normalization pipeline of source `download_binance_ohlcv`
(lines 108-124): build the 12-column DataFrame, convert the two time
columns to datetimes, coerce the five OHLCV columns to numeric, and keep
only `[Open Time, Open, High, Low, Close, Volume]`. -/
def download_binance_ohlcv (klines : List Kline) : DataFrame :=
  let df : DataFrame := ⟨binanceColumns, klines.map Kline.toRow⟩
  let df := df.mapCol "Open Time" toDatetimeMs
  let df := df.mapCol "Close Time" toDatetimeMs
  let df := df.mapCol "Open" toNumericCoerce
  let df := df.mapCol "High" toNumericCoerce
  let df := df.mapCol "Low" toNumericCoerce
  let df := df.mapCol "Close" toNumericCoerce
  let df := df.mapCol "Volume" toNumericCoerce
  df.select ["Open Time", "Open", "High", "Low", "Close", "Volume"]

/-- One row of `yf.Ticker(...).history(...)`: a timezone-aware timestamp
index (epoch ms plus an offset in minutes) and float columns
`Open, High, Low, Close, Volume, Dividends, Stock Splits`. -/
structure YRow where
  date : Int
  tzm : Int
  yOpen : Option DecNum
  yHigh : Option DecNum
  yLow : Option DecNum
  yClose : Option DecNum
  yVolume : Option DecNum
  dividends : Option DecNum
  stockSplits : Option DecNum
deriving DecidableEq, Repr

/-- One provider row as a DataFrame row after `reset_index()` (the `Date`
index becomes the first column). -/
def YRow.toRow (r : YRow) : List Cell :=
  [Cell.datetime r.date (some r.tzm), Cell.num r.yOpen, Cell.num r.yHigh,
   Cell.num r.yLow, Cell.num r.yClose, Cell.num r.yVolume,
   Cell.num r.dividends, Cell.num r.stockSplits]

/-- Columns of the provider table after `reset_index()`. -/
def yahooColumns : List String :=
  ["Date", "Open", "High", "Low", "Close", "Volume", "Dividends", "Stock Splits"]

/-- `Series.dt.tz_localize(None)`: drop the timezone, keeping the local
wall-clock reading. -/
def tzLocalizeNone : Cell → Cell
  | Cell.datetime ms (some off) => Cell.datetime (ms + off * 60000) none
  | c => c

/-- Source `download_yahoo_ohlcv` after the fetch (lines 159-175): raise
`ValueError` on an empty result, else reset the index, rename `Date` to
`Open Time`, keep the six OHLCV columns, and strip the timezone. -/
def download_yahoo_ohlcv (symbol : String) (hist : List YRow) : Except String DataFrame :=
  if hist.isEmpty then Except.error ("No data returned for " ++ symbol)
  else
    let df : DataFrame := ⟨yahooColumns, hist.map YRow.toRow⟩
    let df := df.rename "Date" "Open Time"
    let df := df.select ["Open Time", "Open", "High", "Low", "Close", "Volume"]
    let df := df.mapCol "Open Time" tzLocalizeNone
    Except.ok df

/-- The three supported assets, in canonical order (source `SUPPORTED_ASSETS`). -/
def SUPPORTED_ASSETS : List String := ["btcusdt", "ethusdt", "xauusd"]

/-- Source `OUTPUT_FILES` (a lookup for a key outside the dict would raise,
but `download_asset` only reaches it for supported assets). -/
def OUTPUT_FILES : String → String
  | "btcusdt" => "btcusdt_ohlcv_2025.csv"
  | "ethusdt" => "ethusdt_ohlcv_2025.csv"
  | "xauusd" => "xauusd_ohlcv_2025.csv"
  | _ => ""

/-- One network request made by a provider adapter. -/
inductive Call where
  | binance (symbol startDate endDate : String)
  | yahoo (symbol startDate endDate : String)
deriving DecidableEq, Repr

/-- External world: each provider either returns raw data or fails
(transport/API error), and each file path either accepts a write or fails
with an I/O error. -/
structure Env where
  binance : String → String → String → Except String (List Kline)
  yahoo : String → String → String → Except String (List YRow)
  writeOk : String → Bool

/-- Source `save_to_csv`: `df.to_csv(filename, index=False)` — overwrite,
no append; an I/O failure re-raises. -/
def save_to_csv (env : Env) (df : DataFrame) (filename : String) : Option (String × String) :=
  if env.writeOk filename then some (filename, df.toCsv) else none

/-- Outcome of one `download_asset` call: the returned boolean, the fetch
calls performed, and the files written. -/
structure StepResult where
  ok : Bool
  calls : List Call
  writes : List (String × String)
deriving DecidableEq, Repr

/-- The Binance branch of `download_asset`: fetch (any provider error
propagates to the per-asset handler), normalize, save. -/
def binanceStep (env : Env) (asset symbol startDate endDate : String) : StepResult :=
  match env.binance symbol startDate endDate with
  | Except.error _ => ⟨false, [Call.binance symbol startDate endDate], []⟩
  | Except.ok klines =>
    match save_to_csv env (download_binance_ohlcv klines) (OUTPUT_FILES asset) with
    | some w => ⟨true, [Call.binance symbol startDate endDate], [w]⟩
    | none => ⟨false, [Call.binance symbol startDate endDate], []⟩

/-- The Yahoo branch of `download_asset`: fetch, fail on an empty result,
normalize, save. -/
def yahooStep (env : Env) (asset symbol startDate endDate : String) : StepResult :=
  match env.yahoo symbol startDate endDate with
  | Except.error _ => ⟨false, [Call.yahoo symbol startDate endDate], []⟩
  | Except.ok hist =>
    match download_yahoo_ohlcv symbol hist with
    | Except.error _ => ⟨false, [Call.yahoo symbol startDate endDate], []⟩
    | Except.ok df =>
      match save_to_csv env df (OUTPUT_FILES asset) with
      | some w => ⟨true, [Call.yahoo symbol startDate endDate], [w]⟩
      | none => ⟨false, [Call.yahoo symbol startDate endDate], []⟩

/-- Source `download_asset` (lines 268-297): route the asset to its
provider; `except Exception` turns any failure (provider error, empty
result, I/O error) into `False`; never raises. -/
def download_asset (env : Env) (asset startDate endDate : String) : StepResult :=
  match asset with
  | "btcusdt" => binanceStep env "btcusdt" "BTCUSDT" startDate endDate
  | "ethusdt" => binanceStep env "ethusdt" "ETHUSDT" startDate endDate
  | "xauusd" => yahooStep env "xauusd" "GC=F" startDate endDate
  | _ => ⟨false, [], []⟩

/-- Source `parse_arguments`, restricted to the repeatable `--asset` flag:
`argparse` with `action="append"` rejects a value outside
`SUPPORTED_ASSETS` (process exit 2) and otherwise accumulates the values
in order, duplicates included; no flag at all yields `None`. -/
def parse_arguments (assetFlags : List String) : Except Nat (Option (List String)) :=
  if assetFlags.all (fun a => SUPPORTED_ASSETS.contains a) then
    Except.ok (if assetFlags.isEmpty then none else some assetFlags)
  else Except.error 2

/-- `args.asset if args.asset else SUPPORTED_ASSETS` (Python truthiness:
`None` and the empty list both fall back to all supported assets). -/
def resolveAssets : Option (List String) → List String
  | some l => if l.isEmpty then SUPPORTED_ASSETS else l
  | none => SUPPORTED_ASSETS

/-- Observable outcome of one process run. -/
structure RunResult where
  exitCode : Nat
  attempts : List String
  calls : List Call
  writes : List (String × String)
  successCount : Nat
  totalCount : Nat
deriving DecidableEq, Repr

/-- The body of the per-asset loop in `main`, threading the success
counter and accumulating the observable effects. -/
def mainStep (env : Env) (startDate endDate : String)
    (acc : Nat × List Call × List (String × String)) (asset : String) :
    Nat × List Call × List (String × String) :=
  let r := download_asset env asset startDate endDate
  (acc.1 + (if r.ok then 1 else 0), acc.2.1 ++ r.calls, acc.2.2 ++ r.writes)

/-- Source `main` (lines 300-342): validate both dates (exit 1 before any
network activity on failure), resolve the asset selection, run the
per-asset loop, and exit 1 exactly when some asset failed.  (Named
`mainRun` because Lean reserves `main` for executables.) -/
def mainRun (env : Env) (assetArg : Option (List String)) (startDate endDate : String) :
    RunResult :=
  if strptimeYmd startDate then
    if strptimeYmd endDate then
      let assets := resolveAssets assetArg
      let acc := assets.foldl (mainStep env startDate endDate) (0, [], [])
      { exitCode := if acc.1 < assets.length then 1 else 0,
        attempts := assets, calls := acc.2.1, writes := acc.2.2,
        successCount := acc.1, totalCount := assets.length }
    else ⟨1, [], [], [], 0, 0⟩
  else ⟨1, [], [], [], 0, 0⟩

/-- The normalized schema shared by both adapters. -/
def ohlcvColumns : List String := ["Open Time", "Open", "High", "Low", "Close", "Volume"]

/-- What one raw kline becomes after normalization: the open time as a
naive datetime and the five OHLCV fields leniently coerced to numeric. -/
def binanceRowNorm (k : Kline) : List Cell :=
  [Cell.datetime k.openTime none, Cell.num (parseDec? k.kOpen),
   Cell.num (parseDec? k.kHigh), Cell.num (parseDec? k.kLow),
   Cell.num (parseDec? k.kClose), Cell.num (parseDec? k.kVolume)]

/-- What one provider row becomes after Yahoo normalization: the date
renamed to Open Time with its timezone stripped (keeping the local
wall-clock reading), followed by the five OHLCV columns. -/
def yahooRowNorm (r : YRow) : List Cell :=
  [Cell.datetime (r.date + r.tzm * 60000) none, Cell.num r.yOpen,
   Cell.num r.yHigh, Cell.num r.yLow, Cell.num r.yClose, Cell.num r.yVolume]

/-- Number of assets in `l` whose fetch-and-export succeeds. -/
def succCountOf (env : Env) (startDate endDate : String) (l : List String) : Nat :=
  (l.map (fun a => (download_asset env a startDate endDate).ok)).count true

/-- Fetch calls performed for the assets of `l`, in order. -/
def callsOf (env : Env) (startDate endDate : String) (l : List String) : List Call :=
  (l.map (fun a => (download_asset env a startDate endDate).calls)).flatten

/-- Files written for the assets of `l`, in order. -/
def writesOf (env : Env) (startDate endDate : String) (l : List String) :
    List (String × String) :=
  (l.map (fun a => (download_asset env a startDate endDate).writes)).flatten

/-- The single fetch call a given asset triggers (empty for an unknown
asset, which the CLI layer cannot produce). -/
def fetchCallsFor (asset startDate endDate : String) : List Call :=
  match asset with
  | "btcusdt" => [Call.binance "BTCUSDT" startDate endDate]
  | "ethusdt" => [Call.binance "ETHUSDT" startDate endDate]
  | "xauusd" => [Call.yahoo "GC=F" startDate endDate]
  | _ => []

/-- Cells that are not raw strings (every cell both adapters emit). -/
def Cell.isPlain : Cell → Bool
  | Cell.str _ => false
  | _ => true

/-- Number of newlines in a string (= number of lines of CSV output). -/
def nlCount (s : String) : Nat := s.data.count '\n'

/-- Effect of one `to_csv` write on a filesystem (path → contents): the
target path is overwritten unconditionally, other paths are untouched. -/
def applyWrite (w : String × String) (fs : String → Option String) : String → Option String :=
  fun p => if p = w.1 then some w.2 else fs p

/-- A world where both providers answer with zero rows and every write
succeeds. -/
def envEmptyAll : Env :=
  { binance := fun _ _ _ => Except.ok [],
    yahoo := fun _ _ _ => Except.ok [],
    writeOk := fun _ => true }

/-- One concrete raw kline. -/
def sampleKline : Kline :=
  ⟨0, "1", "2", "0.5", "1.5", "10", 86399999, "10", 5, "1", "1", "0"⟩

/-- One concrete Yahoo history row (UTC-5 timezone offset). -/
def sampleYRow : YRow :=
  ⟨1735794000000, -300, some ⟨2650, 0⟩, some ⟨2660, 0⟩, some ⟨2640, 0⟩,
   some ⟨26555, 1⟩, some ⟨120000, 0⟩, some ⟨0, 0⟩, some ⟨0, 0⟩⟩

/-- A world where both providers answer with one row and every write
succeeds. -/
def envSample : Env :=
  { binance := fun _ _ _ => Except.ok [sampleKline],
    yahoo := fun _ _ _ => Except.ok [sampleYRow],
    writeOk := fun _ => true }

/-- Spec-side predicate, written from the claim's words: the string is a
calendar date in strict `YYYY-MM-DD` form — four digit year, hyphen,
two-digit month, hyphen, two-digit day, all within `datetime`'s ranges. -/
def isStrictYMD (s : String) : Bool :=
  match s.data with
  | [y1, y2, y3, y4, '-', m1, m2, '-', d1, d2] =>
    match digitVal? y1, digitVal? y2, digitVal? y3, digitVal? y4,
          digitVal? m1, digitVal? m2, digitVal? d1, digitVal? d2 with
    | some a, some b, some c, some dd, some e, some f, some g, some h =>
      validDate (1000 * a + 100 * b + 10 * c + dd) (10 * e + f) (10 * g + h)
    | _, _, _, _, _, _, _, _ => false
  | _ => false

/-! ### Theorems -/

/-- The Binance pipeline keeps exactly the six OHLCV columns, converts the
open time to a datetime, and coerces each price/volume string with
`parseDec?` (total; non-numeric strings become `none`). -/
theorem binance_spec (klines : List Kline) :
    download_binance_ohlcv klines = ⟨ohlcvColumns, klines.map binanceRowNorm⟩ := by
  induction klines with
  | nil => rfl
  | cons k ks ih =>
    have h : download_binance_ohlcv (k :: ks) =
        ⟨ohlcvColumns, binanceRowNorm k :: (download_binance_ohlcv ks).rows⟩ := rfl
    rw [h, ih]
    rfl

/-- On a non-empty provider table the Yahoo pipeline returns the six-column
normalized record set with naive timestamps. -/
theorem yahoo_spec (symbol : String) (hist : List YRow) (h : hist ≠ []) :
    download_yahoo_ohlcv symbol hist = Except.ok ⟨ohlcvColumns, hist.map yahooRowNorm⟩ := by
  match hist, h with
  | r0 :: rest, _ =>
    have key : ∀ (l : List YRow), (DataFrame.mk yahooColumns (l.map YRow.toRow)
        |>.rename "Date" "Open Time"
        |>.select ["Open Time", "Open", "High", "Low", "Close", "Volume"]
        |>.mapCol "Open Time" tzLocalizeNone) = ⟨ohlcvColumns, l.map yahooRowNorm⟩ := by
      intro l
      induction l with
      | nil => rfl
      | cons x xs ih =>
        have h2 : (DataFrame.mk yahooColumns ((x :: xs).map YRow.toRow)
            |>.rename "Date" "Open Time"
            |>.select ["Open Time", "Open", "High", "Low", "Close", "Volume"]
            |>.mapCol "Open Time" tzLocalizeNone) =
            ⟨ohlcvColumns, yahooRowNorm x ::
              ((DataFrame.mk yahooColumns (xs.map YRow.toRow)
                |>.rename "Date" "Open Time"
                |>.select ["Open Time", "Open", "High", "Low", "Close", "Volume"]
                |>.mapCol "Open Time" tzLocalizeNone).rows)⟩ := rfl
        rw [h2, ih]
        rfl
    show download_yahoo_ohlcv symbol (r0 :: rest) = _
    unfold download_yahoo_ohlcv
    simp only [List.isEmpty_cons, Bool.false_eq_true, if_false]
    rw [key (r0 :: rest)]

theorem mainLoop_spec (env : Env) (startDate endDate : String) (l : List String) :
    ∀ acc : Nat × List Call × List (String × String),
      l.foldl (mainStep env startDate endDate) acc =
        (acc.1 + succCountOf env startDate endDate l,
         acc.2.1 ++ callsOf env startDate endDate l,
         acc.2.2 ++ writesOf env startDate endDate l) := by
  induction l with
  | nil => intro acc; simp [succCountOf, callsOf, writesOf]
  | cons a rest ih =>
    intro acc
    rw [List.foldl_cons, ih]
    unfold mainStep succCountOf callsOf writesOf
    simp only [List.map_cons, List.flatten_cons, List.count_cons]
    rcases hok : (download_asset env a startDate endDate).ok <;>
      (refine Prod.ext ?_ (Prod.ext ?_ ?_) <;> (simp [hok]; try omega))

/-- `mainRun` after successful date validation, in closed form. -/
theorem mainRun_valid (env : Env) (assetArg : Option (List String))
    (startDate endDate : String) (h1 : strptimeYmd startDate = true)
    (h2 : strptimeYmd endDate = true) :
    mainRun env assetArg startDate endDate =
      { exitCode := if succCountOf env startDate endDate (resolveAssets assetArg) <
            (resolveAssets assetArg).length then 1 else 0,
        attempts := resolveAssets assetArg,
        calls := callsOf env startDate endDate (resolveAssets assetArg),
        writes := writesOf env startDate endDate (resolveAssets assetArg),
        successCount := succCountOf env startDate endDate (resolveAssets assetArg),
        totalCount := (resolveAssets assetArg).length } := by
  unfold mainRun
  rw [h1, h2]
  simp only [if_true]
  rw [mainLoop_spec]
  simp

/-- Each supported asset performs exactly one fetch call, whatever the
provider and filesystem do. -/
theorem download_asset_calls (env : Env) (asset startDate endDate : String) :
    (download_asset env asset startDate endDate).calls = fetchCallsFor asset startDate endDate := by
  unfold download_asset fetchCallsFor binanceStep yahooStep
  repeat' split
  all_goals rfl

theorem digitChar_ne_nl (n : Nat) : digitChar n ≠ '\n' := by
  unfold digitChar
  split <;> decide

theorem nl_app {l1 l2 : List Char} (h1 : '\n' ∉ l1) (h2 : '\n' ∉ l2) :
    '\n' ∉ l1 ++ l2 := by
  simp only [List.mem_append]
  rintro (h | h)
  · exact h1 h
  · exact h2 h

theorem nl_cons {c : Char} {l : List Char} (h1 : c ≠ '\n') (h2 : '\n' ∉ l) :
    '\n' ∉ c :: l := by
  simp only [List.mem_cons]
  rintro (h | h)
  · exact h1 h.symm
  · exact h2 h

theorem nl_not_mem_natCharsAux (fuel n : Nat) : '\n' ∉ natCharsAux fuel n := by
  induction fuel generalizing n with
  | zero => simp [natCharsAux]
  | succ fuel ih =>
    unfold natCharsAux
    split
    · exact nl_cons (digitChar_ne_nl n) (by simp)
    · exact nl_app (ih _) (nl_cons (digitChar_ne_nl _) (by simp))

theorem nl_not_mem_natChars (n : Nat) : '\n' ∉ natChars n :=
  nl_not_mem_natCharsAux _ _

theorem nl_not_mem_intChars (i : Int) : '\n' ∉ intChars i := by
  unfold intChars
  split
  · exact nl_cons (by decide) (nl_not_mem_natChars _)
  · exact nl_not_mem_natChars _

theorem nl_not_mem_padZeros (k : Nat) (ds : List Char) (h : '\n' ∉ ds) :
    '\n' ∉ padZeros k ds := by
  unfold padZeros
  refine nl_app ?_ h
  intro hm
  exact absurd (List.eq_of_mem_replicate hm) (by decide)

theorem nl_not_mem_decDigits (d : DecNum) : '\n' ∉ decDigits d :=
  nl_not_mem_padZeros _ _ (nl_not_mem_natChars _)

theorem nl_not_mem_decChars (d : DecNum) : '\n' ∉ decChars d := by
  unfold decChars
  split
  · exact nl_not_mem_intChars _
  · refine nl_app ?_ (nl_app
      (fun hm => nl_not_mem_decDigits d (List.take_subset _ _ hm))
      (nl_cons (by decide) (fun hm => nl_not_mem_decDigits d (List.drop_subset _ _ hm))))
    split <;> simp

theorem nl_not_mem_pad2 (n : Int) : '\n' ∉ pad2 n :=
  nl_not_mem_padZeros _ _ (nl_not_mem_natChars _)

theorem nl_not_mem_ymdChars (c : Int × Int × Int) : '\n' ∉ ymdChars c :=
  nl_app (nl_not_mem_padZeros _ _ (nl_not_mem_natChars _))
    (nl_cons (by decide) (nl_app (nl_not_mem_pad2 _) (nl_cons (by decide) (nl_not_mem_pad2 _))))

theorem nl_not_mem_hmsChars (rem : Nat) : '\n' ∉ hmsChars rem :=
  nl_app (nl_not_mem_padZeros _ _ (nl_not_mem_natChars _))
    (nl_cons (by decide) (nl_app (nl_not_mem_padZeros _ _ (nl_not_mem_natChars _))
      (nl_cons (by decide) (nl_not_mem_padZeros _ _ (nl_not_mem_natChars _)))))

theorem nl_not_mem_dtChars (ms : Int) : '\n' ∉ dtChars ms :=
  nl_app (nl_not_mem_ymdChars _) (nl_cons (by decide) (nl_not_mem_hmsChars _))

theorem nl_not_mem_tzOffChars (off : Int) : '\n' ∉ tzOffChars off := by
  unfold tzOffChars
  refine nl_cons ?_ (nl_app (nl_not_mem_padZeros _ _ (nl_not_mem_natChars _))
    (nl_cons (by decide) (nl_not_mem_padZeros _ _ (nl_not_mem_natChars _))))
  split <;> decide

/-- No cell other than a raw string renders with a newline in it. -/
theorem render_noNL (cell : Cell) (h : cell.isPlain = true) : '\n' ∉ cell.render.data := by
  cases cell with
  | str s => simp [Cell.isPlain] at h
  | int n => exact nl_not_mem_intChars n
  | num v =>
    cases v with
    | none => simp [Cell.render]
    | some d => exact nl_not_mem_decChars d
  | datetime ms tz =>
    cases tz with
    | none => exact nl_not_mem_dtChars ms
    | some off =>
      show '\n' ∉ dtChars (ms + off * 60000) ++ tzOffChars off
      exact nl_app (nl_not_mem_dtChars _) (nl_not_mem_tzOffChars _)

theorem nl_count_joinSep (ls : List (List Char)) (h : ∀ l ∈ ls, '\n' ∉ l) :
    (joinSep ls).count '\n' = 0 := by
  induction ls with
  | nil => rfl
  | cons x xs ih =>
    cases xs with
    | nil => exact List.count_eq_zero.mpr (h x (by simp))
    | cons y ys =>
      show (x ++ ',' :: joinSep (y :: ys)).count '\n' = 0
      rw [List.count_append, List.count_cons]
      have h1 : x.count '\n' = 0 := List.count_eq_zero.mpr (h x (by simp))
      have h2 : (joinSep (y :: ys)).count '\n' = 0 := ih (fun l hl => h l (by simp [hl]))
      simp [h1, h2]

/-- A CSV export whose cells are all plain has exactly one line per record
plus the header line. -/
theorem toCsv_line_count (df : DataFrame)
    (hcols : ∀ c ∈ df.columns, '\n' ∉ c.data)
    (hcells : ∀ r ∈ df.rows, ∀ cell ∈ r, cell.isPlain = true) :
    nlCount df.toCsv = 1 + df.rows.length := by
  unfold nlCount DataFrame.toCsv
  show (joinSep (df.columns.map String.data) ++ '\n' ::
      (df.rows.map (fun r => joinSep (r.map (fun cell => cell.render.data)) ++ ['\n'])).flatten).count '\n'
    = 1 + df.rows.length
  rw [List.count_append, List.count_cons]
  have hc0 : (joinSep (df.columns.map String.data)).count '\n' = 0 := by
    refine nl_count_joinSep _ ?_
    intro l hl
    rcases List.mem_map.mp hl with ⟨c, hc, rfl⟩
    exact hcols c hc
  have hrows : ((df.rows.map (fun r =>
      joinSep (r.map (fun cell => cell.render.data)) ++ ['\n'])).flatten).count '\n'
      = df.rows.length := by
    rw [List.count_flatten, List.map_map]
    have : ∀ r ∈ df.rows, (List.count '\n' ∘ fun r =>
        joinSep (r.map (fun cell => cell.render.data)) ++ ['\n']) r = 1 := by
      intro r hr
      show (joinSep (r.map (fun cell => cell.render.data)) ++ ['\n']).count '\n' = 1
      rw [List.count_append]
      have : (joinSep (r.map (fun cell => cell.render.data))).count '\n' = 0 := by
        refine nl_count_joinSep _ ?_
        intro l hl
        rcases List.mem_map.mp hl with ⟨cell, hcell, rfl⟩
        exact render_noNL cell (hcells r hr cell hcell)
      simp [this]
    rw [List.map_congr_left this]
    simp [List.map_const]
  rw [hc0, hrows]
  simp [Nat.add_comm]

/-- The header line of a six-column OHLCV export, verbatim. -/
theorem toCsv_header (df : DataFrame) (hc : df.columns = ohlcvColumns) :
    ∃ body : String, df.toCsv = "Open Time,Open,High,Low,Close,Volume\n" ++ body := by
  refine ⟨String.mk ((df.rows.map (fun r =>
    joinSep (r.map (fun cell => cell.render.data)) ++ ['\n'])).flatten), ?_⟩
  unfold DataFrame.toCsv
  rw [hc]
  show String.mk (joinSep (ohlcvColumns.map String.data) ++ '\n' :: _) =
    String.mk ("Open Time,Open,High,Low,Close,Volume\n".data ++ _)
  apply congrArg String.mk
  rw [show ∀ l : List Char, '\n' :: l = ['\n'] ++ l from fun l => rfl, ← List.append_assoc]
  apply congrArg (· ++ _)
  decide

theorem save_to_csv_some (env : Env) (df : DataFrame) (fl : String) (w : String × String)
    (h : save_to_csv env df fl = some w) : w = (fl, df.toCsv) ∧ env.writeOk fl = true := by
  unfold save_to_csv at h
  split at h
  · exact ⟨(Option.some.inj h).symm, by assumption⟩
  · cases h

theorem binance_rows_plain (klines : List Kline) :
    ∀ r ∈ (download_binance_ohlcv klines).rows, ∀ cell ∈ r, cell.isPlain = true := by
  rw [binance_spec]
  intro r hr cell hcell
  rcases List.mem_map.mp hr with ⟨k, _, rfl⟩
  simp only [binanceRowNorm, List.mem_cons, List.not_mem_nil, or_false] at hcell
  rcases hcell with rfl | rfl | rfl | rfl | rfl | rfl <;> rfl

theorem yahoo_rows_plain (hist : List YRow) (h : hist ≠ []) :
    ∀ df : DataFrame, download_yahoo_ohlcv "GC=F" hist = Except.ok df →
      ∀ r ∈ df.rows, ∀ cell ∈ r, cell.isPlain = true := by
  intro df hdf
  rw [yahoo_spec _ _ h] at hdf
  cases hdf
  intro r hr cell hcell
  rcases List.mem_map.mp hr with ⟨x, _, rfl⟩
  simp only [yahooRowNorm, List.mem_cons, List.not_mem_nil, or_false] at hcell
  rcases hcell with rfl | rfl | rfl | rfl | rfl | rfl <;> rfl

/-- Any file written by `download_asset` is that asset's fixed output path,
written with permission, and its content is the CSV of a six-column
normalized record set. -/
theorem download_asset_writes (env : Env) (asset startDate endDate f c : String)
    (hm : (f, c) ∈ (download_asset env asset startDate endDate).writes) :
    asset ∈ SUPPORTED_ASSETS ∧ f = OUTPUT_FILES asset ∧ env.writeOk f = true ∧
    ∃ df : DataFrame, c = df.toCsv ∧ df.columns = ohlcvColumns ∧
      (∀ r ∈ df.rows, ∀ cell ∈ r, cell.isPlain = true) := by
  unfold download_asset at hm
  split at hm
  case h_1 =>
    unfold binanceStep at hm
    rcases hb : env.binance "BTCUSDT" startDate endDate with e | kl
    · simp [hb] at hm
    · rcases hs : save_to_csv env (download_binance_ohlcv kl) (OUTPUT_FILES "btcusdt")
        with _ | w
      · simp [hb, hs] at hm
      · simp only [hb, hs, List.mem_singleton] at hm
        rcases save_to_csv_some _ _ _ _ hs with ⟨rfl, hwk⟩
        cases hm
        refine ⟨by decide, rfl, hwk, download_binance_ohlcv kl, rfl, ?_, binance_rows_plain kl⟩
        rw [binance_spec]
  case h_2 =>
    unfold binanceStep at hm
    rcases hb : env.binance "ETHUSDT" startDate endDate with e | kl
    · simp [hb] at hm
    · rcases hs : save_to_csv env (download_binance_ohlcv kl) (OUTPUT_FILES "ethusdt")
        with _ | w
      · simp [hb, hs] at hm
      · simp only [hb, hs, List.mem_singleton] at hm
        rcases save_to_csv_some _ _ _ _ hs with ⟨rfl, hwk⟩
        cases hm
        refine ⟨by decide, rfl, hwk, download_binance_ohlcv kl, rfl, ?_, binance_rows_plain kl⟩
        rw [binance_spec]
  case h_3 =>
    unfold yahooStep at hm
    rcases hy : env.yahoo "GC=F" startDate endDate with e | hist
    · simp [hy] at hm
    · rcases hd : download_yahoo_ohlcv "GC=F" hist with e | df
      · simp [hy, hd] at hm
      · rcases hs : save_to_csv env df (OUTPUT_FILES "xauusd") with _ | w
        · simp [hy, hd, hs] at hm
        · simp only [hy, hd, hs, List.mem_singleton] at hm
          rcases save_to_csv_some _ _ _ _ hs with ⟨rfl, hwk⟩
          cases hm
          have hne : hist ≠ [] := by
            intro h0
            rw [h0] at hd
            simp [download_yahoo_ohlcv] at hd
          refine ⟨by decide, rfl, hwk, df, rfl, ?_, yahoo_rows_plain hist hne df hd⟩
          rw [yahoo_spec _ _ hne] at hd
          cases hd
          rfl
  case h_4 => simp at hm

/-- Every write of a full run comes from some attempted asset's
`download_asset`. -/
theorem mainRun_writes_mem (env : Env) (assetArg : Option (List String))
    (startDate endDate f c : String)
    (hm : (f, c) ∈ (mainRun env assetArg startDate endDate).writes) :
    ∃ asset ∈ (mainRun env assetArg startDate endDate).attempts,
      (f, c) ∈ (download_asset env asset startDate endDate).writes := by
  rcases h1 : strptimeYmd startDate with _ | _
  · unfold mainRun at hm
    rw [h1] at hm
    simp at hm
  · rcases h2 : strptimeYmd endDate with _ | _
    · unfold mainRun at hm
      rw [h1, h2] at hm
      simp at hm
    · rw [mainRun_valid env assetArg startDate endDate h1 h2] at hm ⊢
      simp only at hm ⊢
      unfold writesOf at hm
      rcases List.mem_flatten.mp hm with ⟨l, hl, hml⟩
      rcases List.mem_map.mp hl with ⟨asset, ha, rfl⟩
      exact ⟨asset, ha, hml⟩

/-- C2: if the start-date string or the end-date string fails `YYYY-MM-DD`
validation, the process exits with status 1 before any provider adapter is
invoked: no fetch call, no write, no attempted instrument. -/
theorem invalid_date_no_network (env : Env) (assetArg : Option (List String))
    (startDate endDate : String)
    (h : strptimeYmd startDate = false ∨ strptimeYmd endDate = false) :
    (mainRun env assetArg startDate endDate).exitCode = 1 ∧
    (mainRun env assetArg startDate endDate).calls = [] ∧
    (mainRun env assetArg startDate endDate).writes = [] ∧
    (mainRun env assetArg startDate endDate).attempts = [] := by
  have key : mainRun env assetArg startDate endDate = ⟨1, [], [], [], 0, 0⟩ := by
    unfold mainRun
    rcases h with h | h
    · rw [h]
      simp
    · rcases hs : strptimeYmd startDate with _ | _
      · simp
      · rw [h]
        simp
  rw [key]
  exact ⟨rfl, rfl, rfl, rfl⟩

theorem invalid_date_no_network_witness :
    (strptimeYmd "2025-13-45" = false ∨ strptimeYmd "2025-01-01" = false) ∧
    (mainRun envEmptyAll none "2025-13-45" "2025-01-01").exitCode = 1 ∧
    (mainRun envEmptyAll none "2025-13-45" "2025-01-01").calls = [] ∧
    (mainRun envEmptyAll none "2025-13-45" "2025-01-01").writes = [] ∧
    (mainRun envEmptyAll none "2025-13-45" "2025-01-01").attempts = [] :=
  ⟨Or.inl (by decide),
   invalid_date_no_network envEmptyAll none "2025-13-45" "2025-01-01" (Or.inl (by decide))⟩

/-- C3: once date validation passes, the exit status is non-zero exactly
when some requested instrument failed, and zero exactly when every
requested instrument succeeded. -/
theorem exit_code_iff_failures (env : Env) (assetArg : Option (List String))
    (startDate endDate : String) (h1 : strptimeYmd startDate = true)
    (h2 : strptimeYmd endDate = true) :
    ((mainRun env assetArg startDate endDate).exitCode ≠ 0 ↔
      (mainRun env assetArg startDate endDate).successCount <
        (mainRun env assetArg startDate endDate).totalCount) ∧
    ((mainRun env assetArg startDate endDate).exitCode = 0 ↔
      (mainRun env assetArg startDate endDate).successCount =
        (mainRun env assetArg startDate endDate).totalCount) := by
  rw [mainRun_valid env assetArg startDate endDate h1 h2]
  simp only
  have hle : succCountOf env startDate endDate (resolveAssets assetArg) ≤
      (resolveAssets assetArg).length := by
    unfold succCountOf
    calc ((resolveAssets assetArg).map
          (fun a => (download_asset env a startDate endDate).ok)).count true
        ≤ ((resolveAssets assetArg).map
          (fun a => (download_asset env a startDate endDate).ok)).length :=
          List.count_le_length _ _
      _ = (resolveAssets assetArg).length := List.length_map _ _
  by_cases hlt : succCountOf env startDate endDate (resolveAssets assetArg) <
      (resolveAssets assetArg).length
  · rw [if_pos hlt]
    exact ⟨⟨fun _ => hlt, fun _ => one_ne_zero⟩,
      ⟨fun h => absurd h one_ne_zero, fun h => absurd hlt (by omega)⟩⟩
  · rw [if_neg hlt]
    exact ⟨⟨fun h => absurd rfl h, fun h => absurd h hlt⟩,
      ⟨fun _ => by omega, fun _ => rfl⟩⟩

theorem exit_code_iff_failures_witness :
    strptimeYmd "2025-01-01" = true ∧ strptimeYmd "2025-03-01" = true ∧
    (((mainRun envEmptyAll none "2025-01-01" "2025-03-01").exitCode ≠ 0 ↔
      (mainRun envEmptyAll none "2025-01-01" "2025-03-01").successCount <
        (mainRun envEmptyAll none "2025-01-01" "2025-03-01").totalCount) ∧
    ((mainRun envEmptyAll none "2025-01-01" "2025-03-01").exitCode = 0 ↔
      (mainRun envEmptyAll none "2025-01-01" "2025-03-01").successCount =
        (mainRun envEmptyAll none "2025-01-01" "2025-03-01").totalCount)) :=
  ⟨by decide, by decide,
   exit_code_iff_failures envEmptyAll none "2025-01-01" "2025-03-01" (by decide) (by decide)⟩

/-- C4: a valid explicit selection is attempted element by element in
request order with exactly one fetch per selected instrument, and an
omitted selector resolves to all three supported instruments in the
canonical order btcusdt, ethusdt, xauusd. -/
theorem selection_order_and_default (env : Env) (startDate endDate : String)
    (h1 : strptimeYmd startDate = true) (h2 : strptimeYmd endDate = true) :
    SUPPORTED_ASSETS = ["btcusdt", "ethusdt", "xauusd"] ∧
    (mainRun env none startDate endDate).attempts = ["btcusdt", "ethusdt", "xauusd"] ∧
    (∀ sel : List String, sel ≠ [] →
      (mainRun env (some sel) startDate endDate).attempts = sel) ∧
    (∀ sel : List String, sel ≠ [] → (∀ a ∈ sel, a ∈ SUPPORTED_ASSETS) →
      (mainRun env (some sel) startDate endDate).calls =
        (sel.map (fun a => fetchCallsFor a startDate endDate)).flatten ∧
      ∀ a ∈ sel, (fetchCallsFor a startDate endDate).length = 1) := by
  have hres : ∀ sel : List String, sel ≠ [] → resolveAssets (some sel) = sel := by
    intro sel hne
    show (if sel.isEmpty = true then SUPPORTED_ASSETS else sel) = sel
    rw [if_neg (fun hc => hne (List.isEmpty_iff.mp hc))]
  refine ⟨rfl, ?_, ?_, ?_⟩
  · rw [mainRun_valid env none startDate endDate h1 h2]
    rfl
  · intro sel hne
    rw [mainRun_valid env (some sel) startDate endDate h1 h2]
    exact hres sel hne
  · intro sel hne hval
    constructor
    · rw [mainRun_valid env (some sel) startDate endDate h1 h2]
      show callsOf env startDate endDate (resolveAssets (some sel)) = _
      rw [hres sel hne]
      unfold callsOf
      rw [List.map_congr_left (fun a _ => download_asset_calls env a startDate endDate)]
    · intro a ha
      have := hval a ha
      simp only [SUPPORTED_ASSETS, List.mem_cons, List.not_mem_nil, or_false] at this
      rcases this with rfl | rfl | rfl <;> rfl

theorem selection_order_and_default_witness :
    strptimeYmd "2025-01-01" = true ∧ strptimeYmd "2025-03-01" = true ∧
    (mainRun envEmptyAll none "2025-01-01" "2025-03-01").attempts =
      ["btcusdt", "ethusdt", "xauusd"] ∧
    (mainRun envEmptyAll (some ["xauusd", "btcusdt"]) "2025-01-01" "2025-03-01").attempts =
      ["xauusd", "btcusdt"] :=
  ⟨by decide, by decide,
   (selection_order_and_default envEmptyAll "2025-01-01" "2025-03-01"
     (by decide) (by decide)).2.1,
   (selection_order_and_default envEmptyAll "2025-01-01" "2025-03-01"
     (by decide) (by decide)).2.2.1 ["xauusd", "btcusdt"] (by decide)⟩

/-- C7: after date validation every resolved instrument is attempted, in
order, whatever the providers and the filesystem do; each instrument's
success and effects are exactly those of its own `download_asset` call
(which returns a boolean instead of raising), so one instrument's failure
never aborts the others. -/
theorem per_instrument_isolation (env : Env) (assetArg : Option (List String))
    (startDate endDate : String) (h1 : strptimeYmd startDate = true)
    (h2 : strptimeYmd endDate = true) :
    (mainRun env assetArg startDate endDate).attempts = resolveAssets assetArg ∧
    (mainRun env assetArg startDate endDate).totalCount = (resolveAssets assetArg).length ∧
    (mainRun env assetArg startDate endDate).successCount =
      ((resolveAssets assetArg).map
        (fun a => (download_asset env a startDate endDate).ok)).count true ∧
    (mainRun env assetArg startDate endDate).writes =
      ((resolveAssets assetArg).map
        (fun a => (download_asset env a startDate endDate).writes)).flatten ∧
    (mainRun env assetArg startDate endDate).calls =
      ((resolveAssets assetArg).map
        (fun a => (download_asset env a startDate endDate).calls)).flatten := by
  rw [mainRun_valid env assetArg startDate endDate h1 h2]
  exact ⟨rfl, rfl, rfl, rfl, rfl⟩

theorem per_instrument_isolation_witness :
    strptimeYmd "2025-01-01" = true ∧ strptimeYmd "2025-03-01" = true ∧
    (mainRun envEmptyAll none "2025-01-01" "2025-03-01").attempts =
      resolveAssets none ∧
    (mainRun envEmptyAll none "2025-01-01" "2025-03-01").successCount =
      ((resolveAssets none).map
        (fun a => (download_asset envEmptyAll a "2025-01-01" "2025-03-01").ok)).count true :=
  ⟨by decide, by decide,
   (per_instrument_isolation envEmptyAll none "2025-01-01" "2025-03-01"
     (by decide) (by decide)).1,
   (per_instrument_isolation envEmptyAll none "2025-01-01" "2025-03-01"
     (by decide) (by decide)).2.2.1⟩

/-- C10: repeated `--asset` flags are kept as a list with duplicates
(`argparse` append): a name given n times is attempted n times, each
occurrence enters `total_count`, and each succeeding occurrence enters
`success_count`; nothing is deduplicated. -/
theorem duplicate_selection_counted (env : Env) (startDate endDate : String)
    (flags : List String) (h1 : strptimeYmd startDate = true)
    (h2 : strptimeYmd endDate = true) (hne : flags ≠ [])
    (hval : ∀ a ∈ flags, a ∈ SUPPORTED_ASSETS) :
    parse_arguments flags = Except.ok (some flags) ∧
    (mainRun env (some flags) startDate endDate).attempts = flags ∧
    (mainRun env (some flags) startDate endDate).totalCount = flags.length ∧
    (mainRun env (some flags) startDate endDate).successCount =
      (flags.map (fun a => (download_asset env a startDate endDate).ok)).count true ∧
    (mainRun env (some flags) startDate endDate).calls =
      (flags.map (fun a => fetchCallsFor a startDate endDate)).flatten := by
  have hres : resolveAssets (some flags) = flags := by
    show (if flags.isEmpty = true then SUPPORTED_ASSETS else flags) = flags
    rw [if_neg (fun hc => hne (List.isEmpty_iff.mp hc))]
  refine ⟨?_, ?_, ?_, ?_, ?_⟩
  · have hall : flags.all (fun a => SUPPORTED_ASSETS.contains a) = true := by
      rw [List.all_eq_true]
      intro a ha
      exact List.elem_iff.mpr (hval a ha)
    unfold parse_arguments
    rw [if_pos hall, if_neg (fun hc => hne (List.isEmpty_iff.mp hc))]
  · rw [mainRun_valid env (some flags) startDate endDate h1 h2]
    exact hres
  · rw [mainRun_valid env (some flags) startDate endDate h1 h2]
    show (resolveAssets (some flags)).length = flags.length
    rw [hres]
  · rw [mainRun_valid env (some flags) startDate endDate h1 h2]
    show succCountOf env startDate endDate (resolveAssets (some flags)) = _
    rw [hres]
    rfl
  · rw [mainRun_valid env (some flags) startDate endDate h1 h2]
    show callsOf env startDate endDate (resolveAssets (some flags)) = _
    rw [hres]
    unfold callsOf
    rw [List.map_congr_left (fun a _ => download_asset_calls env a startDate endDate)]

theorem duplicate_selection_counted_witness :
    parse_arguments ["btcusdt", "btcusdt"] = Except.ok (some ["btcusdt", "btcusdt"]) ∧
    (mainRun envEmptyAll (some ["btcusdt", "btcusdt"]) "2025-01-01" "2025-03-01").attempts =
      ["btcusdt", "btcusdt"] ∧
    (mainRun envEmptyAll (some ["btcusdt", "btcusdt"]) "2025-01-01" "2025-03-01").totalCount = 2 :=
  ⟨(duplicate_selection_counted envEmptyAll "2025-01-01" "2025-03-01"
      ["btcusdt", "btcusdt"] (by decide) (by decide) (by decide) (by decide)).1,
   (duplicate_selection_counted envEmptyAll "2025-01-01" "2025-03-01"
      ["btcusdt", "btcusdt"] (by decide) (by decide) (by decide) (by decide)).2.1,
   (duplicate_selection_counted envEmptyAll "2025-01-01" "2025-03-01"
      ["btcusdt", "btcusdt"] (by decide) (by decide) (by decide) (by decide)).2.2.1⟩

/-- C5: for every raw kline list, the Exchange Klines adapter keeps exactly
`[Open Time, Open, High, Low, Close, Volume]` in that order, converts the
epoch-millisecond open time to a (naive) datetime value, and coerces the
five price/volume fields with the total function `parseDec?`, so a
non-numeric field yields the null cell and coercion never raises. -/
theorem binance_normalization (klines : List Kline) :
    download_binance_ohlcv klines =
      ⟨["Open Time", "Open", "High", "Low", "Close", "Volume"],
       klines.map binanceRowNorm⟩ ∧
    (∀ s : String, parseDec? s = none → toNumericCoerce (Cell.str s) = Cell.num none) ∧
    (∀ k : Kline, binanceRowNorm k =
      [Cell.datetime k.openTime none, Cell.num (parseDec? k.kOpen),
       Cell.num (parseDec? k.kHigh), Cell.num (parseDec? k.kLow),
       Cell.num (parseDec? k.kClose), Cell.num (parseDec? k.kVolume)]) :=
  ⟨binance_spec klines,
   fun s h => by simp [toNumericCoerce, h],
   fun k => rfl⟩

theorem binance_normalization_witness :
    download_binance_ohlcv [sampleKline] =
      ⟨["Open Time", "Open", "High", "Low", "Close", "Volume"],
       [sampleKline].map binanceRowNorm⟩ ∧
    parseDec? "not-a-number" = none ∧
    toNumericCoerce (Cell.str "not-a-number") = Cell.num none :=
  ⟨(binance_normalization [sampleKline]).1, by decide,
   (binance_normalization [sampleKline]).2.1 "not-a-number" (by decide)⟩

/-- C8: on every non-empty provider table the Market-Data Feed adapter
renames the date column to "Open Time", selects exactly
`[Open Time, Open, High, Low, Close, Volume]`, and strips the timezone
offset from every Open Time value (keeping the local wall-clock reading),
so every exported timestamp is naive. -/
theorem yahoo_normalization (symbol : String) (hist : List YRow) (hne : hist ≠ []) :
    download_yahoo_ohlcv symbol hist =
      Except.ok ⟨["Open Time", "Open", "High", "Low", "Close", "Volume"],
        hist.map yahooRowNorm⟩ ∧
    ∀ r ∈ hist, ∃ naiveMs : Int, yahooRowNorm r =
      [Cell.datetime naiveMs none, Cell.num r.yOpen, Cell.num r.yHigh,
       Cell.num r.yLow, Cell.num r.yClose, Cell.num r.yVolume] :=
  ⟨by rw [yahoo_spec symbol hist hne]; rfl,
   fun r _ => ⟨r.date + r.tzm * 60000, rfl⟩⟩

theorem yahoo_normalization_witness :
    ([sampleYRow] ≠ ([] : List YRow)) ∧
    download_yahoo_ohlcv "GC=F" [sampleYRow] =
      Except.ok ⟨["Open Time", "Open", "High", "Low", "Close", "Volume"],
        [sampleYRow].map yahooRowNorm⟩ :=
  ⟨by simp, (yahoo_normalization "GC=F" [sampleYRow] (by simp)).1⟩

/-- C6: every file a run writes is named `{instrument}_ohlcv_2025.csv`,
starts with the exact header line `Open Time,Open,High,Low,Close,Volume`,
is the CSV of a six-column record set with one line per record and no
row-index column, and overwrites whatever a filesystem previously held at
that path. -/
theorem export_schema_invariant (env : Env) (assetArg : Option (List String))
    (startDate endDate f c : String)
    (hm : (f, c) ∈ (mainRun env assetArg startDate endDate).writes) :
    (∃ asset ∈ SUPPORTED_ASSETS, f = asset ++ "_ohlcv_2025.csv") ∧
    (∃ body : String, c = "Open Time,Open,High,Low,Close,Volume\n" ++ body) ∧
    (∃ df : DataFrame, c = df.toCsv ∧ df.columns = ohlcvColumns ∧
      nlCount c = 1 + df.rows.length) ∧
    (∀ fs : String → Option String, applyWrite (f, c) fs f = some c) := by
  rcases mainRun_writes_mem env assetArg startDate endDate f c hm with ⟨asset, _, hw⟩
  rcases download_asset_writes env asset startDate endDate f c hw with
    ⟨hsup, hf, _, df, hc, hcols, hplain⟩
  refine ⟨⟨asset, hsup, ?_⟩, ?_, ⟨df, hc, hcols, ?_⟩, ?_⟩
  · subst hf
    simp only [SUPPORTED_ASSETS, List.mem_cons, List.not_mem_nil, or_false] at hsup
    rcases hsup with rfl | rfl | rfl <;> rfl
  · subst hc
    exact toCsv_header df hcols
  · subst hc
    refine toCsv_line_count df ?_ hplain
    rw [hcols]
    decide
  · intro fs
    unfold applyWrite
    simp

theorem export_schema_invariant_witness :
    (("btcusdt_ohlcv_2025.csv", (download_binance_ohlcv [sampleKline]).toCsv) ∈
      (mainRun envSample (some ["btcusdt"]) "2025-01-01" "2025-01-02").writes) ∧
    ((∃ asset ∈ SUPPORTED_ASSETS,
        "btcusdt_ohlcv_2025.csv" = asset ++ "_ohlcv_2025.csv") ∧
     (∃ body : String, (download_binance_ohlcv [sampleKline]).toCsv =
        "Open Time,Open,High,Low,Close,Volume\n" ++ body) ∧
     (∃ df : DataFrame, (download_binance_ohlcv [sampleKline]).toCsv = df.toCsv ∧
        df.columns = ohlcvColumns ∧
        nlCount (download_binance_ohlcv [sampleKline]).toCsv = 1 + df.rows.length) ∧
     (∀ fs : String → Option String,
        applyWrite ("btcusdt_ohlcv_2025.csv", (download_binance_ohlcv [sampleKline]).toCsv) fs
          "btcusdt_ohlcv_2025.csv" =
          some (download_binance_ohlcv [sampleKline]).toCsv)) := by
  have hmem : ("btcusdt_ohlcv_2025.csv", (download_binance_ohlcv [sampleKline]).toCsv) ∈
      (mainRun envSample (some ["btcusdt"]) "2025-01-01" "2025-01-02").writes := by
    show _ ∈ [("btcusdt_ohlcv_2025.csv", (download_binance_ohlcv [sampleKline]).toCsv)]
    exact List.mem_singleton.mpr rfl
  exact ⟨hmem, export_schema_invariant envSample (some ["btcusdt"])
    "2025-01-01" "2025-01-02" _ _ hmem⟩

/-- C1 counterexample: with the Exchange provider returning zero rows for
BTCUSDT, the orchestrator counts btcusdt as a success and writes a
header-only output file — the claim's "counts as a failure and no output
file is created" fails for the Exchange Klines adapter. -/
theorem binance_empty_success_cex :
    (download_asset envEmptyAll "btcusdt" "2025-01-01" "2025-01-02").ok = true ∧
    (download_asset envEmptyAll "btcusdt" "2025-01-01" "2025-01-02").writes =
      [("btcusdt_ohlcv_2025.csv", "Open Time,Open,High,Low,Close,Volume\n")] :=
  ⟨rfl, rfl⟩

/-- C1 amended: a zero-row result from the Market-Data Feed provider makes
that instrument fail with no file written while the other instruments are
still attempted; a zero-row result from the Exchange provider instead
yields an empty record set that is exported as a header-only file and
counted as a success. -/
theorem empty_result_amended (env : Env) (startDate endDate : String)
    (h1 : strptimeYmd startDate = true) (h2 : strptimeYmd endDate = true)
    (hy : env.yahoo "GC=F" startDate endDate = Except.ok []) :
    (download_asset env "xauusd" startDate endDate).ok = false ∧
    (download_asset env "xauusd" startDate endDate).writes = [] ∧
    (mainRun env none startDate endDate).attempts = SUPPORTED_ASSETS ∧
    (env.binance "BTCUSDT" startDate endDate = Except.ok [] →
      env.writeOk "btcusdt_ohlcv_2025.csv" = true →
      (download_asset env "btcusdt" startDate endDate).ok = true ∧
      (download_asset env "btcusdt" startDate endDate).writes =
        [("btcusdt_ohlcv_2025.csv", "Open Time,Open,High,Low,Close,Volume\n")]) := by
  refine ⟨?_, ?_, ?_, ?_⟩
  · show (yahooStep env "xauusd" "GC=F" startDate endDate).ok = false
    simp [yahooStep, hy, download_yahoo_ohlcv]
  · show (yahooStep env "xauusd" "GC=F" startDate endDate).writes = []
    simp [yahooStep, hy, download_yahoo_ohlcv]
  · rw [mainRun_valid env none startDate endDate h1 h2]
    rfl
  · intro hb hw
    have ho : OUTPUT_FILES "btcusdt" = "btcusdt_ohlcv_2025.csv" := rfl
    constructor
    · show (binanceStep env "btcusdt" "BTCUSDT" startDate endDate).ok = true
      simp [binanceStep, hb, save_to_csv, ho, hw]
    · show (binanceStep env "btcusdt" "BTCUSDT" startDate endDate).writes = _
      simp only [binanceStep, hb, save_to_csv, ho, hw, if_true]
      rfl

theorem empty_result_amended_witness :
    strptimeYmd "2025-01-01" = true ∧ strptimeYmd "2025-03-01" = true ∧
    envEmptyAll.yahoo "GC=F" "2025-01-01" "2025-03-01" = Except.ok [] ∧
    envEmptyAll.binance "BTCUSDT" "2025-01-01" "2025-03-01" = Except.ok [] ∧
    envEmptyAll.writeOk "btcusdt_ohlcv_2025.csv" = true ∧
    (download_asset envEmptyAll "xauusd" "2025-01-01" "2025-03-01").ok = false ∧
    (download_asset envEmptyAll "xauusd" "2025-01-01" "2025-03-01").writes = [] ∧
    (mainRun envEmptyAll none "2025-01-01" "2025-03-01").attempts = SUPPORTED_ASSETS ∧
    (download_asset envEmptyAll "btcusdt" "2025-01-01" "2025-03-01").ok = true :=
  ⟨by decide, by decide, rfl, rfl, rfl,
   (empty_result_amended envEmptyAll "2025-01-01" "2025-03-01"
     (by decide) (by decide) rfl).1,
   (empty_result_amended envEmptyAll "2025-01-01" "2025-03-01"
     (by decide) (by decide) rfl).2.1,
   (empty_result_amended envEmptyAll "2025-01-01" "2025-03-01"
     (by decide) (by decide) rfl).2.2.1,
   ((empty_result_amended envEmptyAll "2025-01-01" "2025-03-01"
     (by decide) (by decide) rfl).2.2.2 rfl rfl).1⟩

theorem digitVal?_le (c : Char) (v : Nat) (h : digitVal? c = some v) : v ≤ 9 := by
  unfold digitVal? at h
  split at h
  case isTrue hc =>
    simp only [Option.some.injEq] at h
    omega
  case isFalse => cases h

theorem daysInMonth_le (y m : Nat) : daysInMonth y m ≤ 31 := by
  unfold daysInMonth
  split
  · split <;> omega
  · split <;> omega

theorem validDate_props (y m d : Nat) (h : validDate y m d = true) :
    1 ≤ y ∧ y ≤ 9999 ∧ 1 ≤ m ∧ m ≤ 12 ∧ 1 ≤ d ∧ d ≤ daysInMonth y m := by
  simp only [validDate, Bool.and_eq_true, decide_eq_true_eq] at h
  obtain ⟨⟨⟨⟨⟨h1, h2⟩, h3⟩, h4⟩, h5⟩, h6⟩ := h
  exact ⟨h1, h2, h3, h4, h5, h6⟩

theorem parseYear_shape (cs : List Char) (y : Nat) (rest : List Char)
    (h : parseYear cs = some (y, rest)) :
    ∃ ys : List Char, cs = ys ++ rest ∧ ys.length = 4 ∧ listNat? ys = some y := by
  unfold parseYear at h
  split at h
  case h_1 a b c d rest' =>
    rcases ha : digitVal? a with _ | va <;> rw [ha] at h
    · cases h
    · rcases hb : digitVal? b with _ | vb <;> rw [hb] at h
      · cases h
      · rcases hc : digitVal? c with _ | vc <;> rw [hc] at h
        · cases h
        · rcases hd : digitVal? d with _ | vd <;> rw [hd] at h
          · cases h
          · simp only [Option.some.injEq, Prod.mk.injEq] at h
            obtain ⟨rfl, rfl⟩ := h
            refine ⟨[a, b, c, d], rfl, rfl, ?_⟩
            simp only [listNat?, List.foldl_cons, List.foldl_nil, ha, hb, hc, hd]
            simp only [Option.some.injEq]
            omega
  case h_2 => cases h

theorem listNat?_one (c : Char) (v : Nat) (h : digitVal? c = some v) :
    listNat? [c] = some v := by
  simp [listNat?, h]

theorem listNat?_two (c1 c2 : Char) (v1 v2 : Nat) (h1 : digitVal? c1 = some v1)
    (h2 : digitVal? c2 = some v2) : listNat? [c1, c2] = some (10 * v1 + v2) := by
  simp [listNat?, h1, h2]

theorem parseMonth_shape (cs : List Char) (m : Nat) (rest : List Char)
    (h : parseMonth cs = some (m, rest)) :
    ∃ ms : List Char, cs = ms ++ rest ∧ 1 ≤ ms.length ∧ ms.length ≤ 2 ∧
      listNat? ms = some m ∧ 1 ≤ m ∧ m ≤ 12 := by
  unfold parseMonth at h
  split at h
  case h_1 => cases h
  case h_2 c1 rest1 =>
    split at h
    case h_1 => cases h
    case h_2 v1 hv1 =>
      split at h
      · simp only [Option.some.injEq, Prod.mk.injEq] at h
        obtain ⟨rfl, rfl⟩ := h
        have := digitVal?_le c1 _ hv1
        exact ⟨[c1], rfl, by simp, by simp, listNat?_one c1 _ hv1, by assumption, by omega⟩
      · cases h
    case h_3 v1 c2 rest2 hv1 =>
      split at h
      case h_1 hv2 =>
        split at h
        · simp only [Option.some.injEq, Prod.mk.injEq] at h
          obtain ⟨rfl, rfl⟩ := h
          have := digitVal?_le c1 _ hv1
          exact ⟨[c1], rfl, by simp, by simp, listNat?_one c1 _ hv1, by assumption, by omega⟩
        · cases h
      case h_2 v2 hv2 =>
        have hb1 := digitVal?_le c1 v1 hv1
        have hb2 := digitVal?_le c2 v2 hv2
        split at h
        case isTrue hcond =>
          simp only [Option.some.injEq, Prod.mk.injEq] at h
          obtain ⟨rfl, rfl⟩ := h
          obtain ⟨rfl, hf⟩ := hcond
          refine ⟨[c1, c2], rfl, by simp, by simp, ?_, by omega, by omega⟩
          rw [listNat?_two c1 c2 1 v2 hv1 hv2]
        case isFalse =>
          split at h
          case isTrue hcond =>
            simp only [Option.some.injEq, Prod.mk.injEq] at h
            obtain ⟨rfl, rfl⟩ := h
            obtain ⟨hz, hf⟩ := hcond
            subst hz
            refine ⟨[c1, c2], rfl, by simp, by simp, ?_, by omega, by omega⟩
            rw [listNat?_two c1 c2 0 v2 hv1 hv2]
            norm_num
          case isFalse =>
            split at h
            case isTrue hcond =>
              simp only [Option.some.injEq, Prod.mk.injEq] at h
              obtain ⟨rfl, rfl⟩ := h
              exact ⟨[c1], rfl, by simp, by simp, listNat?_one c1 _ hv1, by omega, by omega⟩
            case isFalse => cases h

theorem parseDay_shape (cs : List Char) (d : Nat) (rest : List Char)
    (h : parseDay cs = some (d, rest)) :
    ∃ ds : List Char, cs = ds ++ rest ∧ 1 ≤ ds.length ∧ ds.length ≤ 2 ∧
      listNat? ds = some d ∧ 1 ≤ d ∧ d ≤ 31 := by
  unfold parseDay at h
  split at h
  case h_1 => cases h
  case h_2 c1 rest1 =>
    split at h
    case h_1 => cases h
    case h_2 v1 hv1 =>
      split at h
      · simp only [Option.some.injEq, Prod.mk.injEq] at h
        obtain ⟨rfl, rfl⟩ := h
        have := digitVal?_le c1 _ hv1
        exact ⟨[c1], rfl, by simp, by simp, listNat?_one c1 _ hv1, by assumption, by omega⟩
      · cases h
    case h_3 v1 c2 rest2 hv1 =>
      split at h
      case h_1 hv2 =>
        split at h
        · simp only [Option.some.injEq, Prod.mk.injEq] at h
          obtain ⟨rfl, rfl⟩ := h
          have := digitVal?_le c1 _ hv1
          exact ⟨[c1], rfl, by simp, by simp, listNat?_one c1 _ hv1, by assumption, by omega⟩
        · cases h
      case h_2 v2 hv2 =>
        have hb1 := digitVal?_le c1 v1 hv1
        have hb2 := digitVal?_le c2 v2 hv2
        split at h
        case isTrue hcond =>
          simp only [Option.some.injEq, Prod.mk.injEq] at h
          obtain ⟨rfl, rfl⟩ := h
          obtain ⟨rfl, hf⟩ := hcond
          refine ⟨[c1, c2], rfl, by simp, by simp, ?_, by omega, by omega⟩
          rw [listNat?_two c1 c2 3 v2 hv1 hv2]
        case isFalse =>
          split at h
          case isTrue hcond =>
            simp only [Option.some.injEq, Prod.mk.injEq] at h
            obtain ⟨rfl, rfl⟩ := h
            refine ⟨[c1, c2], rfl, by simp, by simp, ?_, ?_, ?_⟩
            · rw [listNat?_two c1 c2 v1 v2 hv1 hv2]
            · rcases hcond with rfl | rfl <;> omega
            · rcases hcond with rfl | rfl <;> omega
          case isFalse =>
            split at h
            case isTrue hcond =>
              simp only [Option.some.injEq, Prod.mk.injEq] at h
              obtain ⟨rfl, rfl⟩ := h
              obtain ⟨hz, hf⟩ := hcond
              subst hz
              refine ⟨[c1, c2], rfl, by simp, by simp, ?_, by omega, by omega⟩
              rw [listNat?_two c1 c2 0 v2 hv1 hv2]
              norm_num
            case isFalse =>
              split at h
              case isTrue hcond =>
                simp only [Option.some.injEq, Prod.mk.injEq] at h
                obtain ⟨rfl, rfl⟩ := h
                exact ⟨[c1], rfl, by simp, by simp, listNat?_one c1 _ hv1, by omega, by omega⟩
              case isFalse => cases h

theorem isStrictYMD_accepted (s : String) (hstrict : isStrictYMD s = true) :
    validate_date s = Except.ok true := by
  unfold isStrictYMD at hstrict
  split at hstrict
  case h_2 => cases hstrict
  case h_1 y1 y2 y3 y4 m1 m2 d1 d2 heq =>
    split at hstrict
    case h_2 => cases hstrict
    case h_1 a b c dd e f g h8 ha hb hc hdd he hf hg hh =>
      obtain ⟨hy1, hy9999, hm1, hm12, hd1, hdlm⟩ := validDate_props _ _ _ hstrict
      have hbf := digitVal?_le m2 f hf
      have hbh := digitVal?_le d2 h8 hh
      have hyear : parseYear (y1 :: y2 :: y3 :: y4 :: '-' :: m1 :: m2 :: '-' :: d1 :: d2 :: []) =
          some (1000 * a + 100 * b + 10 * c + dd,
            '-' :: m1 :: m2 :: '-' :: d1 :: d2 :: []) := by
        simp [parseYear, ha, hb, hc, hdd]
      have hmonth : parseMonth (m1 :: m2 :: '-' :: d1 :: d2 :: []) =
          some (10 * e + f, '-' :: d1 :: d2 :: []) := by
        have he2 : e = 0 ∨ e = 1 := by omega
        rcases he2 with rfl | rfl
        · simp [parseMonth, he, hf, show 1 ≤ f by omega]
        · simp [parseMonth, he, hf, show f ≤ 2 by omega]
      have hday : parseDay (d1 :: d2 :: []) = some (10 * g + h8, []) := by
        have hle31 : 10 * g + h8 ≤ 31 :=
          le_trans hdlm (daysInMonth_le _ _)
        have hg3 : g = 0 ∨ g = 1 ∨ g = 2 ∨ g = 3 := by omega
        rcases hg3 with rfl | rfl | rfl | rfl
        · simp [parseDay, hg, hh, show 1 ≤ h8 by omega]
        · simp [parseDay, hg, hh]
        · simp [parseDay, hg, hh]
        · simp [parseDay, hg, hh, show h8 ≤ 1 by omega]
      have hymd : parseYmd s.data =
          some (1000 * a + 100 * b + 10 * c + dd, 10 * e + f, 10 * g + h8) := by
        rw [heq]
        show parseYmd (y1 :: y2 :: y3 :: y4 :: '-' :: m1 :: m2 :: '-' :: d1 :: d2 :: []) = _
        simp only [parseYmd, hyear, hmonth, hday]
      have hst : strptimeYmd s = true := by
        unfold strptimeYmd
        rw [hymd]
        exact hstrict
      unfold validate_date
      rw [hst]
      rfl

/-- C9 counterexample: `"2025-1-1"` is not a calendar date in `YYYY-MM-DD`
form (month and day are not zero-padded to two digits), yet the Date
Validator accepts it — the "only if" direction of the claim fails. -/
theorem validate_date_unpadded_cex :
    validate_date "2025-1-1" = Except.ok true ∧ isStrictYMD "2025-1-1" = false :=
  ⟨rfl, rfl⟩

/-- C9 amended: the Date Validator accepts every calendar date in strict
`YYYY-MM-DD` form, but also accepts variants with an unpadded one-digit
month or day: whenever it succeeds, the string splits as a four-digit
year, a hyphen, a one-or-two-digit month, a hyphen and a one-or-two-digit
day forming a valid calendar date; every rejected string raises the
invalid-date-format error carrying the offending string. -/
theorem validate_date_amended (s : String) :
    (isStrictYMD s = true → validate_date s = Except.ok true) ∧
    (validate_date s = Except.ok true → ∃ ys ms ds : List Char, ∃ y m d : Nat,
      s.data = ys ++ '-' :: (ms ++ '-' :: ds) ∧
      ys.length = 4 ∧ listNat? ys = some y ∧
      1 ≤ ms.length ∧ ms.length ≤ 2 ∧ listNat? ms = some m ∧
      1 ≤ ds.length ∧ ds.length ≤ 2 ∧ listNat? ds = some d ∧
      validDate y m d = true) ∧
    (validate_date s ≠ Except.ok true →
      validate_date s =
        Except.error ("Invalid date format: " ++ s ++ ". Use YYYY-MM-DD format.")) := by
  refine ⟨isStrictYMD_accepted s, ?_, ?_⟩
  · intro hok
    have hst : strptimeYmd s = true := by
      by_contra hc
      rw [Bool.not_eq_true] at hc
      unfold validate_date at hok
      rw [hc] at hok
      exact absurd hok (by simp)
    unfold strptimeYmd at hst
    rcases hp : parseYmd s.data with _ | ymd
    · rw [hp] at hst
      cases hst
    · rw [hp] at hst
      obtain ⟨y, m, d⟩ := ymd
      unfold parseYmd at hp
      split at hp
      case h_1 y' r1 hpy =>
        split at hp
        case h_1 m' r2 hpm =>
          split at hp
          case h_1 d' hpd =>
            simp only [Option.some.injEq, Prod.mk.injEq] at hp
            obtain ⟨rfl, rfl, rfl⟩ := hp
            obtain ⟨ys, hys, hylen, hyval⟩ := parseYear_shape _ _ _ hpy
            obtain ⟨ms, hms, hmlen1, hmlen2, hmval, _, _⟩ := parseMonth_shape _ _ _ hpm
            obtain ⟨ds, hds, hdlen1, hdlen2, hdval, _, _⟩ := parseDay_shape _ _ _ hpd
            refine ⟨ys, ms, ds, _, _, _, ?_, hylen, hyval,
              hmlen1, hmlen2, hmval, hdlen1, hdlen2, hdval, hst⟩
            rw [hys, hms, hds]
            simp
          case h_2 => cases hp
        case h_2 => cases hp
      case h_2 => cases hp
  · intro hne
    unfold validate_date at hne ⊢
    rcases hc : strptimeYmd s with _ | _
    · simp
    · simp at hne
      rw [hne] at hc
      cases hc

theorem validate_date_amended_witness :
    isStrictYMD "2025-02-03" = true ∧
    validate_date "2025-02-03" = Except.ok true ∧
    validate_date "2025-99-99" =
      Except.error ("Invalid date format: 2025-99-99. Use YYYY-MM-DD format.") := by
  have h99 : strptimeYmd "2025-99-99" = false := by decide
  refine ⟨by decide, (validate_date_amended "2025-02-03").1 (by decide),
    (validate_date_amended "2025-99-99").2.2 ?_⟩
  intro hcon
  unfold validate_date at hcon
  rw [h99] at hcon
  exact absurd hcon (by simp)
